import Mathlib

/-!
Shallow embedding of `src/experimental/reinforce/main.py` (one-file REINFORCE
algorithm): the `Trajectory` record, the `rollouts` episode generator, the
`Policy` forward pass / `compute_action`, and the `REINFORCE` training loop.

Modelling conventions:
* Scalars are `ℚ` (exact arithmetic standing in for the floats of the source).
* The mutable gym environment object is modelled as a state type `σ` with
  pure `reset : σ → Obs × σ` and `step : Act → σ → Obs × ℚ × Bool × σ`
  functions, mirroring `env.reset()` and
  `next_observ, reward, done, _ = env.step(action)`.
* The mutable `MeanStdFilter` object from ray (`reward = reward_filter(reward)`)
  is modelled as a state type `F` with a call function `F → ℚ → ℚ × F`; the
  concrete filter used in the C4 scenario is modelled from the spec (ray's
  filter source is not part of this repository).
* The unbounded `for t in itertools.count()` loop of `rollouts` is given fuel;
  a run that does not terminate within the fuel is `none`.  Any `some` result
  corresponds to an actual (finite) run of the Python loop.
-/

/-- Embedding of the namedtuple
`Trajectory = collections.namedtuple('Trajectory', 'observ, reward, done, action, next_observ, raw_return, return_')`.
Fields keep the source's names; the observation/action types are parameters
(the source stores numpy arrays of environment-specific shape). -/
structure Trajectory (Obs Act : Type) where
  observ : Obs
  reward : ℚ
  done : Bool
  action : Act
  next_observ : Obs
  raw_return : ℚ
  return_ : ℚ
deriving Repr, DecidableEq

/-- Deterministic gym environment interface (spec section 6): `reset` and
`step`, with the object's internal mutable state made explicit as `σ`.
`step` returns `(next_observ, reward, done, new_state)`; the `info` component
of the Python tuple is discarded by the source (`_`) and omitted here. -/
structure Env (σ Obs Act : Type) where
  reset : σ → Obs × σ
  step : Act → σ → Obs × ℚ × Bool × σ

/-- Embedding of the config dictionaries built by `default_config` /
`test_config` and wrapped in `AttrDict`: the five recognized fields. -/
structure Config where
  use_bias : Bool
  env_name : String
  discount_factor : ℚ
  learning_rate : ℚ
  num_episodes : Nat
deriving Repr

/-- Loop body of `rollouts` (`for t in itertools.count(): ...`), with fuel.
Arguments after the fuel mirror the Python local state at the top of the
loop: environment state, filter state, current `observ`, step index `t`, and
the running `raw_return` and `return_` accumulators.  Each pass computes
`action = policy.compute_action(observ)` (the policy is passed as the pure
function it is), steps the environment, normalizes the reward through the
filter (`reward = reward_filter(reward)`), updates both accumulators
(`raw_return += reward`; `return_ += reward * config.discount_factor ** t`),
appends the `Trajectory`, and stops when `done`.  The `np.newaxis`
reshapes are identities in this typed model.  Returns the trajectory list
together with the final filter and environment states (the source mutates
those objects in place). -/
def rolloutsAux (env : Env σ Obs Act) (policy : Obs → Act)
    (reward_filter : F → ℚ → ℚ × F) (config : Config) :
    Nat → σ → F → Obs → Nat → ℚ → ℚ →
    Option (List (Trajectory Obs Act) × F × σ)
  | 0, _, _, _, _, _, _ => none
  | fuel + 1, s, f, observ, t, raw_return, return_ =>
    let action := policy observ
    let stepRes := env.step action s
    let next_observ := stepRes.1
    let reward0 := stepRes.2.1
    let done := stepRes.2.2.1
    let s' := stepRes.2.2.2
    let filterRes := reward_filter f reward0
    let reward := filterRes.1
    let f' := filterRes.2
    let raw_return' := raw_return + reward
    let return_' := return_ + reward * config.discount_factor ^ t
    let traj : Trajectory Obs Act :=
      ⟨observ, reward, done, action, next_observ, raw_return', return_'⟩
    if done then some ([traj], f', s')
    else
      match rolloutsAux env policy reward_filter config
          fuel s' f' next_observ (t + 1) raw_return' return_' with
      | none => none
      | some (rest, f'', s'') => some (traj :: rest, f'', s'')

/-- Embedding of `rollouts(env, policy, reward_filter, config)`: initialize
`raw_return = 0`, `return_ = 0`, reset the environment, and run the loop. -/
def rollouts (fuel : Nat) (env : Env σ Obs Act) (policy : Obs → Act)
    (reward_filter : F → ℚ → ℚ × F) (config : Config) (s : σ) (f : F) :
    Option (List (Trajectory Obs Act) × F × σ) :=
  rolloutsAux env policy reward_filter config fuel (env.reset s).2 f
    (env.reset s).1 0 0 0

/-- Behavioural statement that the environment, driven by the given
deterministic policy from state `s` and observation `observ`, terminates
after exactly `K` further steps: `env.step` reports `done = true` on the
`K`-th step and `false` on every earlier one.  Defined by running the same
interaction `rollouts` performs (the reward filter plays no role in the
dynamics). -/
def terminatesIn (env : Env σ Obs Act) (policy : Obs → Act) :
    Nat → σ → Obs → Bool
  | 0, _, _ => false
  | K + 1, s, observ =>
    let stepRes := env.step (policy observ) s
    if stepRes.2.2.1 then K == 0
    else terminatesIn env policy K stepRes.2.2.2 stepRes.1

/-- Trainable parameters of the policy network built by `Policy._build_model`:
three `tf.layers.dense` kernels without bias, of shapes (2,100), (100,100)
and (100,1). -/
structure PolicyParams where
  w1 : Fin 2 → Fin 100 → ℚ
  w2 : Fin 100 → Fin 100 → ℚ
  w3 : Fin 100 → Fin 1 → ℚ

/-- One `tf.layers.dense(x, n, use_bias=False)` applied to a single row:
matrix-vector product with the kernel. -/
def denseNoBias [Fintype α] (w : α → β → ℚ) (x : α → ℚ) : β → ℚ :=
  fun j => ∑ i, x i * w i j

/-- Embedding of `tf.clip_by_value(x, -1., 1.)` on one scalar:
`min(max(x, lo), hi)`. -/
def clipByValue (lo hi x : ℚ) : ℚ := min (max x lo) hi

/-- Forward pass of `Policy._build_model` on a batch `observ` of shape
(1, 2): two hidden dense layers of width 100 without bias, a dense output
layer of width 1, and a clip to [-1, 1]; output has shape (1, 1). -/
def Policy.model (p : PolicyParams) (observ : Fin 1 → Fin 2 → ℚ) :
    Fin 1 → Fin 1 → ℚ :=
  fun r =>
    let x1 := denseNoBias p.w1 (observ r)
    let x2 := denseNoBias p.w2 x1
    let x3 := denseNoBias p.w3 x2
    fun j => clipByValue (-1) 1 (x3 j)

/-- Error raised at the Policy boundary when an observation has the wrong
shape (the `assert observ.shape == (1, 2)` of `Policy.compute_action`). -/
inductive PolicyError where
  | shapeError
deriving Repr, DecidableEq

/-- Embedding of `Policy.compute_action` on a dynamically shaped numpy
array (a rectangular nested list): `assert observ.shape == (1, 2)` means the
input must be exactly one row of two scalars; on success the result is
`action[0]`, the first (only) row of the model output, of shape (1,). -/
def Policy.compute_action (p : PolicyParams) (observ : List (List ℚ)) :
    Except PolicyError (List ℚ) :=
  match observ with
  | [[a, b]] => .ok [Policy.model p (fun _ => ![a, b]) 0 0]
  | _ => .error .shapeError

/-- Action produced by the policy inside `rollouts` on a well-shaped (1, 2)
batch, as the shape-(1,) vector `action[0]` that `compute_action` returns. -/
def policyAction (p : PolicyParams) (observ : Fin 1 → Fin 2 → ℚ) :
    Fin 1 → ℚ :=
  fun j => Policy.model p observ 0 j

/-- Modelled from the spec: the reward filter is `MeanStdFilter` from
`ray.rllib.utils.filter`, constructed as `MeanStdFilter((), clip=5.)` in
`REINFORCE._init`; its code is an external dependency not contained in this
repository, so the state is modelled from spec section 4.1: running count,
running mean, running sum of squared deviations (Welford sufficient
statistics), the fixed `clip` bound, the small positive `eps` guarding the
division, and a square-root function left abstract (`ℚ` has no exact square
root; the normalized value is compared only in situations where its
numerator is zero, making the choice of `sqrtFn` immaterial). -/
structure MeanStdFilter where
  n : Nat
  mean : ℚ
  m2 : ℚ
  clip : ℚ
  eps : ℚ
  sqrtFn : ℚ → ℚ

/-- Modelled from the spec (section 4.1): `normalize(raw_reward)` updates the
running mean/variance Welford-style, then returns the zero-centered reward
unmodified on the first sample (variance undefined), and otherwise
`z = (raw - mean) / sqrt(variance + eps)` clipped to `[-clip, clip]`. -/
def MeanStdFilter.normalize (f : MeanStdFilter) (raw : ℚ) :
    ℚ × MeanStdFilter :=
  let n' := f.n + 1
  let delta := raw - f.mean
  let mean' := f.mean + delta / (n' : ℚ)
  let m2' := f.m2 + delta * (raw - mean')
  let f' : MeanStdFilter := { f with n := n', mean := mean', m2 := m2' }
  if n' = 1 then (raw - mean', f')
  else
    let variance := m2' / ((n' - 1 : Nat) : ℚ)
    let z := (raw - mean') / f.sqrtFn (variance + f.eps)
    (max (-f.clip) (min f.clip z), f')

/-- Rollout-collection phase of `REINFORCE._train`: the loop
`for _ in range(self.config.num_episodes): episode = rollouts(...)`,
appending episodes in order.  The policy parameters `p` are fixed during
collection; the filter and environment states thread through the calls
(both objects are mutated in place by the source). -/
def collectEpisodes (fuel : Nat) (env : Env σ Obs Act)
    (computeAction : P → Obs → Act) (reward_filter : F → ℚ → ℚ × F)
    (config : Config) (p : P) :
    Nat → σ → F → Option (List (List (Trajectory Obs Act)) × F × σ)
  | 0, s, f => some ([], f, s)
  | n + 1, s, f =>
    match rollouts fuel env (computeAction p) reward_filter config s f with
    | none => none
    | some (episode, f', s') =>
      match collectEpisodes fuel env computeAction reward_filter config
          p n s' f' with
      | none => none
      | some (rest, f'', s'') => some (episode :: rest, f'', s'')

/-- Inner update loop of `REINFORCE._train` over one episode:
`for trajectory in episode:` run one gradient step on the batch-of-one
`(trajectory.observ, trajectory.action)` and record the loss.  The session
update is the abstract `upd` function from parameters and the fed pair to
new parameters and the loss value. -/
def updateEpisode (upd : P → Obs → Act → P × ℚ) :
    P → List (Trajectory Obs Act) → P × List ℚ
  | p, [] => (p, [])
  | p, traj :: rest =>
    let (p', loss) := upd p traj.observ traj.action
    let (p'', losses) := updateEpisode upd p' rest
    (p'', loss :: losses)

/-- Outer update loop of `REINFORCE._train`: `for episode in episodes:`
run the inner loop, accumulating all losses in order into one list. -/
def updateEpisodes (upd : P → Obs → Act → P × ℚ) :
    P → List (List (Trajectory Obs Act)) → P × List ℚ
  | p, [] => (p, [])
  | p, episode :: rest =>
    let (p', losses1) := updateEpisode upd p episode
    let (p'', losses2) := updateEpisodes upd p' rest
    (p'', losses1 ++ losses2)

/-- Mutable state owned by a `REINFORCE` instance: the wrapped environment,
the reward filter created by `_init`, and the policy parameters. -/
structure REINFORCEState (σ F P : Type) where
  env : σ
  reward_filter : F
  policy : P

/-- Embedding of `REINFORCE._train`: collect `config.num_episodes` rollouts
sequentially, then perform one policy update per trajectory of every
collected episode, returning the ordered per-step loss list and the updated
instance state. -/
def REINFORCE.trainOnce (fuel : Nat) (env : Env σ Obs Act)
    (computeAction : P → Obs → Act) (reward_filter : F → ℚ → ℚ × F)
    (upd : P → Obs → Act → P × ℚ) (config : Config)
    (st : REINFORCEState σ F P) :
    Option (List ℚ × REINFORCEState σ F P) :=
  match collectEpisodes fuel env computeAction reward_filter config
      st.policy config.num_episodes st.env st.reward_filter with
  | none => none
  | some (episodes, f', s') =>
    let (p', losses) := updateEpisodes upd st.policy episodes
    some (losses, ⟨s', f', p'⟩)

/-- Embedding of `REINFORCE.train(num_iters)`: the generator
`for i in range(num_iters): yield self._train()`, fully materialized as the
list of per-iteration loss lists (the sequence is finite of length
`num_iters`). -/
def REINFORCE.train (fuel : Nat) (env : Env σ Obs Act)
    (computeAction : P → Obs → Act) (reward_filter : F → ℚ → ℚ × F)
    (upd : P → Obs → Act → P × ℚ) (config : Config) :
    Nat → REINFORCEState σ F P →
    Option (List (List ℚ) × REINFORCEState σ F P)
  | 0, st => some ([], st)
  | num_iters + 1, st =>
    match REINFORCE.trainOnce fuel env computeAction reward_filter upd
        config st with
    | none => none
    | some (losses, st') =>
      match REINFORCE.train fuel env computeAction reward_filter upd config
          num_iters st' with
      | none => none
      | some (rest, st'') => some (losses :: rest, st'')

/-- Concrete test environment used by the witnesses: ignores actions, pays
reward 1, counts steps in its state, and reports done on the `k`-th step. -/
def counterEnv (k : Nat) : Env Nat Unit Unit where
  reset := fun _ => ((), 0)
  step := fun _ n => ((), 1, n + 1 == k, n + 1)

/-- Identity reward filter used by witnesses of filter-generic theorems. -/
def unitFilter : Unit → ℚ → ℚ × Unit := fun _ r => (r, ())

/-- Embedding of the `test_config()` dictionary. -/
def testConfig : Config where
  use_bias := false
  env_name := "MountainCarContinuous-v0"
  discount_factor := 995 / 1000
  learning_rate := 1 / 1000
  num_episodes := 5

theorem rolloutsAux_ne_nil (env : Env σ Obs Act) (policy : Obs → Act)
    (rf : F → ℚ → ℚ × F) (config : Config) :
    ∀ fuel s f observ t raw ret l f2 s2,
      rolloutsAux env policy rf config fuel s f observ t raw ret
        = some (l, f2, s2) → l ≠ [] := by
  intro fuel
  induction fuel with
  | zero =>
    intro s f observ t raw ret l f2 s2 h
    simp [rolloutsAux] at h
  | succ n ih =>
    intro s f observ t raw ret l f2 s2 h
    simp only [rolloutsAux] at h
    split at h
    · simp only [Option.some.injEq, Prod.mk.injEq] at h
      obtain ⟨h1, _⟩ := h
      subst h1
      simp
    · split at h
      · exact absurd h (by simp)
      · simp only [Option.some.injEq, Prod.mk.injEq] at h
        obtain ⟨h1, _⟩ := h
        subst h1
        simp

theorem rolloutsAux_of_terminatesIn (env : Env σ Obs Act) (policy : Obs → Act)
    (rf : F → ℚ → ℚ × F) (config : Config) :
    ∀ K fuel s observ f t raw ret,
      terminatesIn env policy K s observ = true → K ≤ fuel →
      ∃ l f2 s2,
        rolloutsAux env policy rf config fuel s f observ t raw ret
          = some (l, f2, s2) ∧
        l.length = K ∧
        ∀ i (hi : i < l.length), (l.get ⟨i, hi⟩).done = decide (i + 1 = K) := by
  intro K
  induction K with
  | zero =>
    intro fuel s observ f t raw ret hterm _
    simp [terminatesIn] at hterm
  | succ K ih =>
    intro fuel s observ f t raw ret hterm hfuel
    obtain ⟨fuel, rfl⟩ : ∃ m, fuel = m + 1 := ⟨fuel - 1, by omega⟩
    simp only [terminatesIn] at hterm
    cases hdone : (env.step (policy observ) s).2.2.1 with
    | true =>
      rw [hdone] at hterm
      simp only [if_true] at hterm
      have hK : K = 0 := by simpa using hterm
      subst hK
      simp only [rolloutsAux, hdone, if_true]
      refine ⟨_, _, _, rfl, rfl, ?_⟩
      intro i hi
      simp only [List.length_singleton] at hi
      interval_cases i
      simp
    | false =>
      rw [hdone] at hterm
      simp only [Bool.false_eq_true, if_false] at hterm
      have hK : K ≠ 0 := by
        intro h0
        rw [h0] at hterm
        simp [terminatesIn] at hterm
      obtain ⟨rest, f2, s2, hrest, hlen, hpat⟩ :=
        ih fuel (env.step (policy observ) s).2.2.2
          (env.step (policy observ) s).1
          ((rf f (env.step (policy observ) s).2.1).2) (t + 1)
          (raw + (rf f (env.step (policy observ) s).2.1).1)
          (ret + (rf f (env.step (policy observ) s).2.1).1
            * config.discount_factor ^ t)
          hterm (by omega)
      simp only [rolloutsAux, hdone, Bool.false_eq_true, if_false, hrest]
      refine ⟨_, _, _, rfl, by simpa using hlen, ?_⟩
      intro i hi
      cases i with
      | zero =>
        have h1 : ¬ ((0 : ℕ) + 1 = K + 1) := by omega
        simp [hdone, h1]
      | succ j =>
        have hj : j < rest.length := by
          simpa using Nat.lt_of_succ_lt_succ hi
        calc ((_ :: rest).get ⟨j + 1, hi⟩).done
            = (rest.get ⟨j, hj⟩).done := by simp
          _ = decide (j + 1 = K) := hpat j hj
          _ = decide (j + 1 + 1 = K + 1) := by
              simp only [decide_eq_decide]
              omega

/-- C1: for every deterministic environment that terminates after exactly K
steps (done reported true on the K-th step and false before), `rollouts`
returns a trajectory sequence of length exactly K in step order, with done
true on the final entry and false on every earlier one (given enough fuel
for the K steps the Python loop actually runs). -/
theorem C1_rollouts_length_of_terminating (env : Env σ Obs Act)
    (policy : Obs → Act) (rf : F → ℚ → ℚ × F) (config : Config)
    (fuel K : Nat) (s : σ) (f : F)
    (hterm : terminatesIn env policy K (env.reset s).2 (env.reset s).1 = true)
    (hfuel : K ≤ fuel) :
    ∃ l f2 s2, rollouts fuel env policy rf config s f = some (l, f2, s2) ∧
      l.length = K ∧
      ∀ i (hi : i < l.length), (l.get ⟨i, hi⟩).done = decide (i + 1 = K) :=
  rolloutsAux_of_terminatesIn env policy rf config K fuel (env.reset s).2
    (env.reset s).1 f 0 0 0 hterm hfuel

theorem C1_witness :
    ∃ l f2 s2,
      rollouts 5 (counterEnv 2) (fun _ => ()) unitFilter testConfig 0 ()
        = some (l, f2, s2) ∧
      l.length = 2 ∧
      ∀ i (hi : i < l.length), (l.get ⟨i, hi⟩).done = decide (i + 1 = 2) :=
  C1_rollouts_length_of_terminating (counterEnv 2) (fun _ => ()) unitFilter
    testConfig 5 2 0 () (by decide) (by decide)

/-- C10: whenever `rollouts` returns (i.e. the episode loop terminates), the
returned trajectory sequence is non-empty: the termination check runs only
after a step has been taken and its Trajectory appended. -/
theorem C10_rollouts_nonempty (env : Env σ Obs Act) (policy : Obs → Act)
    (rf : F → ℚ → ℚ × F) (config : Config) (fuel : Nat) (s : σ) (f : F)
    (l : List (Trajectory Obs Act)) (f2 : F) (s2 : σ)
    (h : rollouts fuel env policy rf config s f = some (l, f2, s2)) :
    1 ≤ l.length := by
  have hne := rolloutsAux_ne_nil env policy rf config fuel (env.reset s).2 f
    (env.reset s).1 0 0 0 l f2 s2 h
  exact Nat.one_le_iff_ne_zero.mpr fun h0 => hne (List.length_eq_zero.mp h0)

theorem C10_witness :
    1 ≤ ([⟨(), (1 : ℚ), true, (), (), 1, 1⟩] :
      List (Trajectory Unit Unit)).length :=
  C10_rollouts_nonempty (counterEnv 1) (fun _ => ()) unitFilter testConfig
    3 0 () _ () 1
    (by norm_num [rollouts, rolloutsAux, counterEnv, unitFilter, testConfig])

theorem rolloutsAux_raw_return (env : Env σ Obs Act) (policy : Obs → Act)
    (rf : F → ℚ → ℚ × F) (config : Config) :
    ∀ fuel s f observ t raw ret l f2 s2,
      rolloutsAux env policy rf config fuel s f observ t raw ret
        = some (l, f2, s2) →
      (∀ h0 : 0 < l.length,
        (l.get ⟨0, h0⟩).raw_return = raw + (l.get ⟨0, h0⟩).reward) ∧
      (∀ i (hi : i + 1 < l.length),
        (l.get ⟨i + 1, hi⟩).raw_return
          = (l.get ⟨i, Nat.lt_of_succ_lt hi⟩).raw_return
            + (l.get ⟨i + 1, hi⟩).reward) := by
  intro fuel
  induction fuel with
  | zero =>
    intro s f observ t raw ret l f2 s2 h
    simp [rolloutsAux] at h
  | succ n ih =>
    intro s f observ t raw ret l f2 s2 h
    simp only [rolloutsAux] at h
    split at h
    · simp only [Option.some.injEq, Prod.mk.injEq] at h
      obtain ⟨hl, -⟩ := h
      subst hl
      constructor
      · intro h0
        simp
      · intro i hi
        simp at hi
    · split at h
      · exact absurd h (by simp)
      · rename_i rest f3 s3 heq
        simp only [Option.some.injEq, Prod.mk.injEq] at h
        obtain ⟨hl, -⟩ := h
        subst hl
        obtain ⟨ihHead, ihStep⟩ := ih _ _ _ _ _ _ _ _ _ heq
        constructor
        · intro h0
          simp
        · intro i hi
          cases i with
          | zero =>
            have h0 : 0 < rest.length := by
              simpa using Nat.lt_of_succ_lt_succ hi
            have := ihHead h0
            simpa using this
          | succ j =>
            have hj : j + 1 < rest.length := by
              simpa using Nat.lt_of_succ_lt_succ hi
            have := ihStep j hj
            simpa using this

/-- C2: for every rollout produced by `rollouts`, the `raw_return` field
satisfies `raw_return[0] = reward[0]` and
`raw_return[t] = raw_return[t-1] + reward[t]` for t > 0, where `reward` is
the post-normalization reward stored in the trajectory. -/
theorem C2_raw_return_recurrence (env : Env σ Obs Act) (policy : Obs → Act)
    (rf : F → ℚ → ℚ × F) (config : Config) (fuel : Nat) (s : σ) (f : F)
    (l : List (Trajectory Obs Act)) (f2 : F) (s2 : σ)
    (h : rollouts fuel env policy rf config s f = some (l, f2, s2)) :
    (∀ h0 : 0 < l.length,
      (l.get ⟨0, h0⟩).raw_return = (l.get ⟨0, h0⟩).reward) ∧
    (∀ t (ht : t + 1 < l.length),
      (l.get ⟨t + 1, ht⟩).raw_return
        = (l.get ⟨t, Nat.lt_of_succ_lt ht⟩).raw_return
          + (l.get ⟨t + 1, ht⟩).reward) := by
  obtain ⟨hHead, hStep⟩ := rolloutsAux_raw_return env policy rf config fuel
    (env.reset s).2 f (env.reset s).1 0 0 0 l f2 s2 h
  exact ⟨fun h0 => by simpa using hHead h0, hStep⟩

/-- Concrete two-step episode produced by `rollouts` against `counterEnv 2`
with the identity filter and `testConfig`; used by witnesses. -/
def sampleEpisode : List (Trajectory Unit Unit) :=
  [⟨(), 1, false, (), (), 1, 1⟩, ⟨(), 1, true, (), (), 2, 399 / 200⟩]

theorem C2_witness :
    (∀ h0 : 0 < sampleEpisode.length,
      (sampleEpisode.get ⟨0, h0⟩).raw_return
        = (sampleEpisode.get ⟨0, h0⟩).reward) ∧
    (∀ t (ht : t + 1 < sampleEpisode.length),
      (sampleEpisode.get ⟨t + 1, ht⟩).raw_return
        = (sampleEpisode.get ⟨t, Nat.lt_of_succ_lt ht⟩).raw_return
          + (sampleEpisode.get ⟨t + 1, ht⟩).reward) :=
  C2_raw_return_recurrence (counterEnv 2) (fun _ => ()) unitFilter testConfig
    5 0 () sampleEpisode () 2
    (by norm_num [rollouts, rolloutsAux, counterEnv, unitFilter, testConfig,
      sampleEpisode])

theorem rolloutsAux_discount_one (env : Env σ Obs Act) (policy : Obs → Act)
    (rf : F → ℚ → ℚ × F) (config : Config)
    (hd : config.discount_factor = 1) :
    ∀ fuel s f observ t raw ret l f2 s2, ret = raw →
      rolloutsAux env policy rf config fuel s f observ t raw ret
        = some (l, f2, s2) →
      ∀ i (hi : i < l.length),
        (l.get ⟨i, hi⟩).return_ = (l.get ⟨i, hi⟩).raw_return := by
  intro fuel
  induction fuel with
  | zero =>
    intro s f observ t raw ret l f2 s2 hr h
    simp [rolloutsAux] at h
  | succ n ih =>
    intro s f observ t raw ret l f2 s2 hr h
    subst hr
    simp only [rolloutsAux] at h
    split at h
    · simp only [Option.some.injEq, Prod.mk.injEq] at h
      obtain ⟨hl, -⟩ := h
      subst hl
      intro i hi
      simp only [List.length_singleton] at hi
      interval_cases i
      simp [hd]
    · split at h
      · exact absurd h (by simp)
      · rename_i rest f3 s3 heq
        simp only [Option.some.injEq, Prod.mk.injEq] at h
        obtain ⟨hl, -⟩ := h
        subst hl
        have hih := ih _ _ _ _ _ _ rest f3 s3
          (by rw [hd, one_pow, mul_one]) heq
        intro i hi
        cases i with
        | zero =>
          simp [hd]
        | succ j =>
          have hj : j < rest.length := by
            simpa using Nat.lt_of_succ_lt_succ hi
          simpa using hih j hj

/-- C3: for every rollout executed with `config.discount_factor = 1`, the
`discounted_return` (`return_`) field equals the `raw_return` field at every
step of the returned trajectory sequence, exactly, in the exact (rational)
arithmetic of this model. -/
theorem C3_discount_one_returns_equal (env : Env σ Obs Act)
    (policy : Obs → Act) (rf : F → ℚ → ℚ × F) (config : Config)
    (hd : config.discount_factor = 1) (fuel : Nat) (s : σ) (f : F)
    (l : List (Trajectory Obs Act)) (f2 : F) (s2 : σ)
    (h : rollouts fuel env policy rf config s f = some (l, f2, s2)) :
    ∀ i (hi : i < l.length),
      (l.get ⟨i, hi⟩).return_ = (l.get ⟨i, hi⟩).raw_return :=
  rolloutsAux_discount_one env policy rf config hd fuel (env.reset s).2 f
    (env.reset s).1 0 0 0 l f2 s2 rfl h

/-- Variant of `testConfig` with `discount_factor = 1`, for the C3 witness. -/
def configOne : Config := { testConfig with discount_factor := 1 }

/-- Concrete episode produced against `counterEnv 2` under `configOne`. -/
def sampleEpisodeOne : List (Trajectory Unit Unit) :=
  [⟨(), 1, false, (), (), 1, 1⟩, ⟨(), 1, true, (), (), 2, 2⟩]

theorem C3_witness :
    (sampleEpisodeOne.get ⟨1, by decide⟩).return_
      = (sampleEpisodeOne.get ⟨1, by decide⟩).raw_return :=
  C3_discount_one_returns_equal (counterEnv 2) (fun _ => ()) unitFilter
    configOne rfl 5 0 () sampleEpisodeOne () 2
    (by norm_num [rollouts, rolloutsAux, counterEnv, unitFilter, configOne,
      testConfig, sampleEpisodeOne]) 1 (by decide)

/-- All-zero policy parameters (a concrete parameter setting used by the
concrete scenarios; the theorems below hold for arbitrary parameters). -/
def zeroParams : PolicyParams where
  w1 := fun _ _ => 0
  w2 := fun _ _ => 0
  w3 := fun _ _ => 0

/-- C5: for every input observation of the shape `compute_action` expects,
the returned action has every component within the closed interval [-1, 1]
(for arbitrary parameter values), because the model output is clipped. -/
theorem C5_compute_action_range (p : PolicyParams) (a b : ℚ) :
    ∃ v, Policy.compute_action p [[a, b]] = .ok [v] ∧ -1 ≤ v ∧ v ≤ 1 := by
  refine ⟨Policy.model p (fun _ => ![a, b]) 0 0, rfl, ?_, ?_⟩
  · simp only [Policy.model, clipByValue]
    exact le_min (le_max_right _ _) (by norm_num)
  · simp only [Policy.model, clipByValue]
    exact min_le_right _ _

theorem C6_counterexample :
    Policy.compute_action zeroParams [[0, 0], [0, 0]] = .error .shapeError ∧
    ([[(0 : ℚ), 0], [0, 0]] : List (List ℚ)).length = 2 ∧
    ∀ r ∈ ([[(0 : ℚ), 0], [0, 0]] : List (List ℚ)), r.length = 2 := by
  refine ⟨rfl, rfl, ?_⟩
  intro r hr
  simp only [List.mem_cons, List.not_mem_nil, or_false] at hr
  rcases hr with h | h <;> subst h <;> rfl

/-- C6 (amended): `Policy.compute_action` fails with a ShapeError exactly
when the observation does not have shape (1, 2), that is, unless it is a
single row of two scalars: the assert fixes the batch size to 1, so
observations of shape (N, 2) with N other than 1 are rejected too. -/
theorem C6_shape_error_iff (p : PolicyParams) (observ : List (List ℚ)) :
    Policy.compute_action p observ = .error .shapeError ↔
      ∀ a b : ℚ, observ ≠ [[a, b]] := by
  constructor
  · intro h a b hobs
    subst hobs
    simp [Policy.compute_action] at h
  · intro h
    unfold Policy.compute_action
    split
    · rename_i a b
      exact absurd rfl (h a b)
    · rfl

/-- Constant observation of the stub environment, as a (1, 2) batch. -/
def stubObserv : Fin 1 → Fin 2 → ℚ := fun _ _ => 0

/-- Stub environment of the C4 scenario: always returns `reward = 1`, with
`done` becoming true on the third step; the internal state counts steps. -/
def stubEnv : Env Nat (Fin 1 → Fin 2 → ℚ) (Fin 1 → ℚ) where
  reset := fun _ => (stubObserv, 0)
  step := fun _ n => (stubObserv, 1, n + 1 == 3, n + 1)

/-- Config of the C4 scenario: `discount_factor = 0.995`,
`num_episodes = 2`. -/
def c4Config : Config where
  use_bias := false
  env_name := "MountainCarContinuous-v0"
  discount_factor := 995 / 1000
  learning_rate := 1 / 1000
  num_episodes := 2

/-- Fresh filter state as created by `MeanStdFilter((), clip=5.)`, with the
square-root function supplied as a parameter. -/
def initialFilter (sq : ℚ → ℚ) : MeanStdFilter where
  n := 0
  mean := 0
  m2 := 0
  clip := 5
  eps := 1 / 100000000
  sqrtFn := sq

theorem C4_counterexample :
    (rollouts 5 stubEnv (policyAction zeroParams) MeanStdFilter.normalize
        c4Config 0 (initialFilter id)).map
          (fun r => r.1.map Trajectory.raw_return)
      = some [0, 0, 0] ∧
    some [(0 : ℚ), 0, 0] ≠ some [1, 2, 3] := by
  constructor
  · norm_num [rollouts, rolloutsAux, stubEnv, MeanStdFilter.normalize,
      c4Config, initialFilter]
  · norm_num

/-- C4 (amended): in the concrete scenario (discount_factor = 0.995,
num_episodes = 2, stub environment always returning reward 1 with done on
the third step), `rollouts` returns a trajectory sequence of length 3, but
because every stored reward passes through `reward_filter.normalize` before
being accumulated and the filter maps the constant reward stream to 0, the
`raw_return` fields are [0, 0, 0] (not [1, 2, 3]) and the
`discounted_return` of the last entry is 0 (not 1 + 0.995 + 0.995^2);
this holds for every choice of the square-root function of the filter. -/
theorem C4_stub_scenario (sq : ℚ → ℚ) :
    (rollouts 5 stubEnv (policyAction zeroParams) MeanStdFilter.normalize
        c4Config 0 (initialFilter sq)).map
          (fun r => (r.1.length, r.1.map Trajectory.raw_return,
            r.1.map Trajectory.return_))
      = some (3, [0, 0, 0], [0, 0, 0]) := by
  norm_num [rollouts, rolloutsAux, stubEnv, MeanStdFilter.normalize,
    c4Config, initialFilter]

theorem updateEpisode_append (upd : P → Obs → Act → P × ℚ) :
    ∀ (xs ys : List (Trajectory Obs Act)) (p : P),
      updateEpisode upd p (xs ++ ys)
        = ((updateEpisode upd (updateEpisode upd p xs).1 ys).1,
           (updateEpisode upd p xs).2
             ++ (updateEpisode upd (updateEpisode upd p xs).1 ys).2) := by
  intro xs
  induction xs with
  | nil =>
    intro ys p
    simp [updateEpisode]
  | cons traj rest ih =>
    intro ys p
    simp only [List.cons_append, updateEpisode, List.append_eq]
    rw [ih]

theorem updateEpisodes_flatten (upd : P → Obs → Act → P × ℚ) :
    ∀ (episodes : List (List (Trajectory Obs Act))) (p : P),
      updateEpisodes upd p episodes = updateEpisode upd p episodes.flatten := by
  intro episodes
  induction episodes with
  | nil =>
    intro p
    simp [updateEpisodes, updateEpisode]
  | cons episode rest ih =>
    intro p
    simp only [updateEpisodes, List.flatten_cons, updateEpisode_append, ih]

theorem collectEpisodes_length (env : Env σ Obs Act)
    (ca : P → Obs → Act) (rf : F → ℚ → ℚ × F) (config : Config)
    (fuel : Nat) (p : P) :
    ∀ n s f episodes f2 s2,
      collectEpisodes fuel env ca rf config p n s f
        = some (episodes, f2, s2) →
      episodes.length = n := by
  intro n
  induction n with
  | zero =>
    intro s f episodes f2 s2 h
    simp only [collectEpisodes, Option.some.injEq, Prod.mk.injEq] at h
    obtain ⟨hl, -⟩ := h
    subst hl
    rfl
  | succ m ih =>
    intro s f episodes f2 s2 h
    simp only [collectEpisodes] at h
    split at h
    · exact absurd h (by simp)
    · split at h
      · exact absurd h (by simp)
      · rename_i episode f3 s3 heq1 rest f4 s4 heq2
        simp only [Option.some.injEq, Prod.mk.injEq] at h
        obtain ⟨hl, -⟩ := h
        subst hl
        simpa using ih _ _ _ _ _ heq2

theorem train_length (env : Env σ Obs Act) (ca : P → Obs → Act)
    (rf : F → ℚ → ℚ × F) (upd : P → Obs → Act → P × ℚ) (config : Config)
    (fuel : Nat) :
    ∀ n st ls st2,
      REINFORCE.train fuel env ca rf upd config n st = some (ls, st2) →
      ls.length = n := by
  intro n
  induction n with
  | zero =>
    intro st ls st2 h
    simp only [REINFORCE.train, Option.some.injEq, Prod.mk.injEq] at h
    obtain ⟨hl, -⟩ := h
    subst hl
    rfl
  | succ m ih =>
    intro st ls st2 h
    simp only [REINFORCE.train] at h
    split at h
    · exact absurd h (by simp)
    · split at h
      · exact absurd h (by simp)
      · rename_i losses st3 heq1 rest st4 heq2
        simp only [Option.some.injEq, Prod.mk.injEq] at h
        obtain ⟨hl, -⟩ := h
        subst hl
        simpa using ih _ _ _ heq2

/-- C8: `train(num_iterations)` produces exactly `num_iterations`
per-iteration loss lists; each iteration collects `config.num_episodes`
rollouts sequentially and then performs exactly one policy update per
Trajectory of every collected episode, in order (the nested loop equals one
flat pass over the concatenated episodes), yielding the ordered losses and
the correspondingly updated parameters. -/
theorem C8_train_iteration_structure (env : Env σ Obs Act)
    (ca : P → Obs → Act) (rf : F → ℚ → ℚ × F)
    (upd : P → Obs → Act → P × ℚ) (config : Config) (fuel : Nat) :
    (∀ n st ls st2,
      REINFORCE.train fuel env ca rf upd config n st = some (ls, st2) →
      ls.length = n) ∧
    (∀ st ls st2,
      REINFORCE.trainOnce fuel env ca rf upd config st = some (ls, st2) →
      ∃ episodes f2 s2,
        collectEpisodes fuel env ca rf config st.policy config.num_episodes
          st.env st.reward_filter = some (episodes, f2, s2) ∧
        episodes.length = config.num_episodes ∧
        ls = (updateEpisode upd st.policy episodes.flatten).2 ∧
        st2 = ⟨s2, f2, (updateEpisode upd st.policy episodes.flatten).1⟩) := by
  constructor
  · exact train_length env ca rf upd config fuel
  · intro st ls st2 h
    simp only [REINFORCE.trainOnce] at h
    split at h
    · exact absurd h (by simp)
    · rename_i episodes f2 s2 heq
      simp only [Option.some.injEq, Prod.mk.injEq] at h
      obtain ⟨hl, hst⟩ := h
      refine ⟨episodes, f2, s2, heq,
        collectEpisodes_length env ca rf config fuel st.policy _ _ _ _ _ _
          heq, ?_, ?_⟩
      · rw [← hl, updateEpisodes_flatten]
      · rw [← hst, updateEpisodes_flatten]

/-- Abstract policy of the training-loop witnesses: parameters are a single
rational, actions are trivial. -/
def sampleCA : ℚ → Unit → Unit := fun _ _ => ()

/-- Abstract update of the training-loop witnesses: one gradient step adds 1
to the parameter and reports the pre-step parameter as the loss. -/
def sampleUpd : ℚ → Unit → Unit → ℚ × ℚ := fun p _ _ => (p + 1, p)

/-- Config with two episodes per iteration, for the C8 witness. -/
def twoEpConfig : Config := { testConfig with num_episodes := 2 }

/-- Initial REINFORCE instance state of the training-loop witnesses. -/
def initState : REINFORCEState Nat Unit ℚ := ⟨0, (), 0⟩

theorem C8_witness :
    ([[(0 : ℚ), 1], [2, 3]] : List (List ℚ)).length = 2 ∧
    (∃ episodes f2 s2,
      collectEpisodes 3 (counterEnv 1) sampleCA unitFilter twoEpConfig
        initState.policy twoEpConfig.num_episodes initState.env
        initState.reward_filter = some (episodes, f2, s2) ∧
      episodes.length = twoEpConfig.num_episodes ∧
      ([(0 : ℚ), 1] : List ℚ)
        = (updateEpisode sampleUpd initState.policy episodes.flatten).2 ∧
      (⟨1, (), 2⟩ : REINFORCEState Nat Unit ℚ)
        = ⟨s2, f2,
            (updateEpisode sampleUpd initState.policy episodes.flatten).1⟩) :=
  ⟨(C8_train_iteration_structure (counterEnv 1) sampleCA unitFilter
      sampleUpd twoEpConfig 3).1 2 initState [[0, 1], [2, 3]] ⟨1, (), 4⟩
      (by norm_num [REINFORCE.train, REINFORCE.trainOnce, collectEpisodes,
        updateEpisodes, updateEpisode, rollouts, rolloutsAux, counterEnv,
        unitFilter, twoEpConfig, testConfig, sampleCA, sampleUpd,
        initState]),
   (C8_train_iteration_structure (counterEnv 1) sampleCA unitFilter
      sampleUpd twoEpConfig 3).2 initState [0, 1] ⟨1, (), 2⟩
      (by norm_num [REINFORCE.trainOnce, collectEpisodes, updateEpisodes,
        updateEpisode, rollouts, rolloutsAux, counterEnv, unitFilter,
        twoEpConfig, testConfig, sampleCA, sampleUpd, initState])⟩

/-- C9: invoking the training loop with `num_iterations = 0` yields an empty
sequence of loss lists and returns the instance state unchanged: no
environment reset or step happens and the policy parameters and the
reward-filter statistics are exactly the initial ones. -/
theorem C9_train_zero_iterations (env : Env σ Obs Act) (ca : P → Obs → Act)
    (rf : F → ℚ → ℚ × F) (upd : P → Obs → Act → P × ℚ) (config : Config)
    (fuel : Nat) (st : REINFORCEState σ F P) :
    REINFORCE.train fuel env ca rf upd config 0 st = some ([], st) := rfl
